import Mathlib

set_option maxHeartbeats 1000000

/-!
Verification development for the jinjamator task-discovery and dynamic
API-registration engine.

The Python source under scrutiny is:
  * jinjamator/daemon/api/endpoints/tasks.py   (discover_tasks, APIJinjamatorTask)
  * jinjamator/daemon/__init__.py              (initialize, web-UI tail)
  * jinjamator/tools/password.py               (redact)

Python strings are modeled as Lean `String` viewed through `String.data`
(a Python `str` is a sequence of code points, exactly `List Char`).  All
string primitives used by the source (`str.replace`, `str.split`,
`str.startswith`, `os.path.dirname`, `os.path.join`, slicing) are
re-implemented below on `List Char` with structural recursion so that every
definition evaluates inside the kernel.
-/

/-- Python `s.replace(pat, repl)` on character lists: scan left to right, at each
position replace a (nonempty) occurrence of `pat` and continue after it,
otherwise keep the character.  The `fuel` argument is only a structural
termination measure; `pyReplace` instantiates it with the length of `s`, which
is always enough.  (Python's behavior for an empty pattern — inserting `repl`
between characters — is not modeled: the source only ever replaces a
task-base-directory path, and the general theorems below carry the
corresponding non-occurrence or nonemptiness hypotheses.) -/
def pyReplaceL (pat repl : List Char) : Nat → List Char → List Char
  | 0, s => s
  | _, [] => []
  | fuel+1, c :: rest =>
    if pat.isPrefixOf (c :: rest) && !pat.isEmpty then
      repl ++ pyReplaceL pat repl fuel ((c :: rest).drop pat.length)
    else
      c :: pyReplaceL pat repl fuel rest

/-- Python `s.replace(pat, repl)` on strings. -/
def pyReplace (s pat repl : String) : String :=
  ⟨pyReplaceL pat.data repl.data s.data.length s.data⟩

/-- Python `s.split(sep)` (nonempty separator) on character lists; `acc` holds
the current chunk reversed, `fuel` is a structural termination measure
(instantiated with the length of `s`, which is always enough). -/
def pySplitL (sep : List Char) : Nat → List Char → List Char → List (List Char)
  | _, acc, [] => [acc.reverse]
  | 0, acc, s => [acc.reverse ++ s]
  | fuel+1, acc, c :: rest =>
    if sep.isPrefixOf (c :: rest) && !sep.isEmpty then
      acc.reverse :: pySplitL sep fuel [] ((c :: rest).drop sep.length)
    else
      pySplitL sep fuel (c :: acc) rest

/-- Python `s.split(sep)` on strings. -/
def pySplit (s sep : String) : List String :=
  (pySplitL sep.data s.data.length [] s.data).map fun l => ⟨l⟩

/-- Python slicing `s[n:]` (drop the first `n` code points). -/
def strDrop (n : Nat) (s : String) : String := ⟨s.data.drop n⟩

/-- Length of a Python string in code points. -/
def strLen (s : String) : Nat := s.data.length

/-- Python `s.startswith(pre)`. -/
def sStarts (s pre : String) : Bool := pre.data.isPrefixOf s.data

/-- Python `s.endswith(suf)`. -/
def sEnds (s suf : String) : Bool := suf.data.isSuffixOf s.data

/-- Whether `pat` occurs as a contiguous subsequence of `s` (Python `pat in s`). -/
def occursB (pat : List Char) : List Char → Bool
  | [] => pat.isEmpty
  | c :: rest => pat.isPrefixOf (c :: rest) || occursB pat rest

/-- `os.path.dirname` (posix): the text before the final `'/'`, with trailing
slashes stripped unless the head consists only of slashes. -/
def pyDirname (p : String) : String :=
  let headRev := p.data.reverse.dropWhile (fun c => c ≠ '/')
  let stripped := headRev.dropWhile (fun c => c = '/')
  if stripped = [] then ⟨headRev.reverse⟩ else ⟨stripped.reverse⟩

/-- `os.path.join(a, b)` (posix, two arguments): an absolute `b` replaces `a`;
otherwise they are joined with exactly one separator. -/
def pyJoin (a b : String) : String :=
  if sStarts b "/" then b
  else if a = "" then b
  else if sEnds a "/" then a ++ b
  else a ++ "/" ++ b

/-- Join path components with `'/'` (inverse of splitting on `'/'` for
slash-free components). -/
def joinComps : List String → String
  | [] => ""
  | [c] => c
  | c :: d :: cs => c ++ "/" ++ joinComps (d :: cs)

/-!
The identifier deriver.  The source computes `xxhash.xxh64(task_dir).hexdigest()`
(seed 0, the string hashed as its UTF-8 encoding, digest rendered as 16
lowercase hex characters).  The XXH64 algorithm is reproduced below over `Nat`
with explicit reduction modulo `2 ^ 64`; it agrees with the published test
vectors (see `xxh64_vector_abc` and `xxh64_vector_long` among the theorems).
-/

/-- `2 ^ 64`. -/
def M64 : Nat := 18446744073709551616

/-- Reduce modulo `2 ^ 64`. -/
def m64 (x : Nat) : Nat := x % M64

/-- 64-bit left rotation (for `x < 2 ^ 64`, `0 < r < 64`). -/
def rotl64 (x r : Nat) : Nat := m64 (x <<< r) ||| (x >>> (64 - r))

/-- XXH64 prime 1, `0x9E3779B185EBCA87`. -/
def P1 : Nat := 11400714785074694791

/-- XXH64 prime 2, `0xC2B2AE3D27D4EB4F`. -/
def P2 : Nat := 14029467366897019727

/-- XXH64 prime 3, `0x165667B19E3779F9`. -/
def P3 : Nat := 1609587929392839161

/-- XXH64 prime 4, `0x85EBCA77C2B2AE63`. -/
def P4 : Nat := 9650029242287828579

/-- XXH64 prime 5, `0x27D4EB2F165667C5`. -/
def P5 : Nat := 2870177450012600261

/-- The XXH64 accumulator round. -/
def xxRound (acc input : Nat) : Nat :=
  m64 (rotl64 (m64 (acc + m64 (input * P2))) 31 * P1)

/-- The XXH64 merge round used when folding the four lanes together. -/
def xxMergeRound (acc val : Nat) : Nat :=
  m64 (m64 ((acc ^^^ xxRound 0 val) * P1) + P4)

/-- The XXH64 final avalanche. -/
def xxAvalanche (h0 : Nat) : Nat :=
  let h1 := h0 ^^^ (h0 >>> 33)
  let h2 := m64 (h1 * P2)
  let h3 := h2 ^^^ (h2 >>> 29)
  let h4 := m64 (h3 * P3)
  h4 ^^^ (h4 >>> 32)

/-- Little-endian value of a byte list. -/
def readLE : List Nat → Nat
  | [] => 0
  | b :: rest => b + 256 * readLE rest

/-- Process the 32-byte stripes of the input through the four XXH64 lanes;
`fuel` is a structural termination measure (the byte count suffices). -/
def xxStripes : Nat → Nat × Nat × Nat × Nat → List Nat → (Nat × Nat × Nat × Nat) × List Nat
  | 0, vs, bs => (vs, bs)
  | fuel+1, (v1, v2, v3, v4), bs =>
    if bs.length ≥ 32 then
      xxStripes fuel
        (xxRound v1 (readLE (bs.take 8)),
         xxRound v2 (readLE ((bs.drop 8).take 8)),
         xxRound v3 (readLE ((bs.drop 16).take 8)),
         xxRound v4 (readLE ((bs.drop 24).take 8)))
        (bs.drop 32)
    else ((v1, v2, v3, v4), bs)

/-- Fold the remaining (fewer than 32) bytes into the accumulator:
8-byte words, then a 4-byte word, then single bytes. -/
def xxTail : Nat → Nat → List Nat → Nat
  | 0, acc, _ => acc
  | fuel+1, acc, bs =>
    if bs.length ≥ 8 then
      xxTail fuel (m64 (m64 (rotl64 (acc ^^^ xxRound 0 (readLE (bs.take 8))) 27 * P1) + P4)) (bs.drop 8)
    else if bs.length ≥ 4 then
      xxTail fuel (m64 (m64 (rotl64 (acc ^^^ m64 (readLE (bs.take 4) * P1)) 23 * P2) + P3)) (bs.drop 4)
    else
      match bs with
      | [] => acc
      | b :: rest => xxTail fuel (m64 (rotl64 (acc ^^^ m64 (b * P5)) 11 * P1)) rest

/-- XXH64 with seed 0 of a byte sequence. -/
def xxh64 (bytes : List Nat) : Nat :=
  let len := bytes.length
  let hrest :=
    if len ≥ 32 then
      let sr := xxStripes len (m64 (P1 + P2), P2, 0, M64 - P1) bytes
      let v1 := sr.1.1
      let v2 := sr.1.2.1
      let v3 := sr.1.2.2.1
      let v4 := sr.1.2.2.2
      let h0 := m64 (rotl64 v1 1 + rotl64 v2 7 + rotl64 v3 12 + rotl64 v4 18)
      (xxMergeRound (xxMergeRound (xxMergeRound (xxMergeRound h0 v1) v2) v3) v4, sr.2)
    else (m64 P5, bytes)
  xxAvalanche (xxTail (hrest.2.length + 1) (m64 (hrest.1 + len)) hrest.2)

/-- A lowercase hexadecimal digit. -/
def hexChar (n : Nat) : Char := if n < 10 then Char.ofNat (48 + n) else Char.ofNat (87 + n)

/-- The `k` least significant hex digits of `n`, least significant first. -/
def hexAux : Nat → Nat → List Char
  | 0, _ => []
  | k+1, n => hexChar (n % 16) :: hexAux k (n / 16)

/-- Fixed-width 16-character lowercase hexadecimal rendering (`hexdigest`). -/
def toHex16 (n : Nat) : String := ⟨(hexAux 16 n).reverse⟩

/-- UTF-8 encoding of one code point. -/
def charUtf8 (c : Char) : List Nat :=
  let n := c.toNat
  if n < 128 then [n]
  else if n < 2048 then [192 ||| (n >>> 6), 128 ||| (n &&& 63)]
  else if n < 65536 then [224 ||| (n >>> 12), 128 ||| ((n >>> 6) &&& 63), 128 ||| (n &&& 63)]
  else [240 ||| (n >>> 18), 128 ||| ((n >>> 12) &&& 63), 128 ||| ((n >>> 6) &&& 63), 128 ||| (n &&& 63)]

/-- UTF-8 encoding of a string. -/
def utf8Bytes (s : String) : List Nat := s.data.flatMap charUtf8

/-- `xxhash.xxh64(s).hexdigest()`: the identifier deriver of the source
(tasks.py line 43). -/
def xxh64hex (s : String) : String := toHex16 (xxh64 (utf8Bytes s))

/-!
Python `dict` with string keys, modeled as an insertion-ordered association
list with unique keys: lookup finds the first (hence only) binding, assignment
overwrites in place or appends a fresh key at the end, exactly as CPython
dictionaries behave.
-/

/-- `d.get(k)` as an `Option`: the binding of `k`, if any. -/
def dictLookup {β : Type} (m : List (String × β)) (k : String) : Option β :=
  match m with
  | [] => none
  | (k', v) :: rest => if k' = k then some v else dictLookup rest k

/-- Python `k in d`. -/
def dictContains {β : Type} (m : List (String × β)) (k : String) : Bool :=
  (dictLookup m k).isSome

/-- Python `d[k] = v`: overwrite in place, or append a new binding. -/
def dictSet {β : Type} (m : List (String × β)) (k : String) (v : β) : List (String × β) :=
  match m with
  | [] => [(k, v)]
  | (k', v') :: rest => if k' = k then (k', v) :: rest else (k', v') :: dictSet rest k v

/-!
The discovery engine of `discover_tasks` (tasks.py lines 26-109).

External collaborators are parameters of the model:
  * `synthOf p` stands for the whole schema-synthesis attempt of the `try`
    block (lines 53-62: `JinjamatorTask()`, `merge_dict`, `task.load(p)` with
    `p = os.path.join(base_dir, path)`, `get_jsonform_schema`, the
    JSON round trip, and `api.schema_model`); it returns the resulting schema
    model, or `none` when any of those steps raises — the `except` on
    line 108 catches every exception from the block.
  * `docOf` stands for `get_section_from_task_doc`.  It is not part of the
    reviewed sources; following its documented interface
    (`extract_description(directory) -> string | absent`) it is modeled as a
    total function into `Option String` — in particular it does not raise.
  * Route registration (`@ns.route(...)`, lines 63-106) is modeled as
    appending the endpoint name to `routes`; the HTTP routing collaborator is
    out of scope and assumed to accept every registration.
The `synthCalls` field records each invocation of the synthesis collaborator,
making re-processing of a candidate observable in the final state.
-/

/-- The descriptor built on tasks.py lines 44-50 (`task_info`). -/
structure TaskInfo where
  id : String
  path : String
  base_dir : String
  description : String
deriving DecidableEq, Repr

/-- The external collaborators of the discovery engine. -/
structure Oracles where
  synthOf : String → Option String
  docOf : String → Option String

/-- The process-wide mutable state touched by `discover_tasks`. -/
structure DState where
  available_tasks_by_path : List (String × TaskInfo)
  task_models : List (String × String)
  routes : List String
  synthCalls : List String
deriving DecidableEq, Repr

/-- The empty initial state (module-level dicts start empty, lines 22-24). -/
def initState : DState := ⟨[], [], [], []⟩

/-- Line 48: `get_section_from_task_doc(task_dir) or 'no description'`
(Python `or` replaces both an absent and an empty section). -/
def descriptionOf (o : Oracles) (task_dir : String) : String :=
  match o.docOf task_dir with
  | some s => if s = "" then "no description" else s
  | none => "no description"

/-- Line 42: `dir_name = task_dir.replace(tasks_base_dir,'')[1:]` — note
`str.replace` removes every occurrence of the base directory, not only the
leading prefix. -/
def dirNameOf (task_dir base : String) : String :=
  strDrop 1 (pyReplace task_dir base "")

/-- Line 43: `task_id = xxhash.xxh64(task_dir).hexdigest()`. -/
def taskIdOf (task_dir : String) : String := xxh64hex task_dir

/-- Lines 34-38: the hidden-directory filter.  A chunk of
`task_dir.replace(tasks_base_dir,'').split(os.path.sep)` that starts with `'.'`
or equals `'__pycache__'` clears the `append` flag. -/
def hiddenFilteredB (task_dir base : String) : Bool :=
  (pySplit (pyReplace task_dir base "") "/").any fun c =>
    sStarts c "." || decide (c = "__pycache__")

/-- Lines 44-50: the `task_info` dictionary. -/
def taskInfoOf (o : Oracles) (base task_dir : String) : TaskInfo :=
  { id := taskIdOf task_dir
    path := dirNameOf task_dir base
    base_dir := base
    description := descriptionOf o task_dir }

/-- One iteration of the innermost loop of `discover_tasks`
(tasks.py lines 33-109) for the candidate directory `task_dir` found under
`base`:
  * lines 34-38: skip the candidate when the hidden filter fires;
  * line 51: the deduplication check `if task_id not in available_tasks_by_path`
    — it tests the id against a dictionary whose keys are relative paths;
  * line 52: insert the descriptor under `dir_name` before the `try` block;
  * lines 53-107: attempt schema synthesis; on success store the model under
    the relative path and register the endpoint, on any exception (line 108)
    log and continue with the state as it is. -/
def processCandidate (o : Oracles) (st : DState) (base task_dir : String) : DState :=
  if hiddenFilteredB task_dir base then st
  else
    let info := taskInfoOf o base task_dir
    if dictContains st.available_tasks_by_path info.id then st
    else
      let st1 : DState :=
        { st with available_tasks_by_path := dictSet st.available_tasks_by_path info.path info }
      let loadPath := pyJoin base info.path
      match o.synthOf loadPath with
      | some model =>
          { st1 with
              task_models := dictSet st1.task_models info.path model
              routes := st1.routes ++ [info.path]
              synthCalls := st1.synthCalls ++ [loadPath] }
      | none => { st1 with synthCalls := st1.synthCalls ++ [loadPath] }

/-- Run the discovery loop over a list of `(base directory, task directory)`
candidates. -/
def discoverFrom (o : Oracles) (st : DState) : List (String × String) → DState
  | [] => st
  | (base, task_dir) :: rest => discoverFrom o (processCandidate o st base task_dir) rest

/-- Whether the file path `p` is produced by
`glob.glob(os.path.join(base, '**', '*.' + ext), recursive=True)` (line 32):
`p` lies strictly under `base`, every component on the way is nonempty and
does not start with `'.'` (glob wildcards never match a leading dot), and the
file name matches `*.ext`. -/
def globMatch (base ext p : String) : Bool :=
  sStarts p (base ++ "/") &&
  (let comps := pySplit (strDrop (strLen base + 1) p) "/"
   comps.all (fun c => !(c = "" : Bool) && !(sStarts c ".")) &&
   (match comps.getLast? with
    | some fname => sEnds fname ("." ++ ext)
    | none => false))

/-- The candidate stream of one discovery pass (tasks.py lines 30-33): for
each configured base directory and each of the extensions `py`, `j2`, every
matching file contributes its containing directory, in filesystem order
(`fs` lists the files of the filesystem in traversal order). -/
def candidatesOf (bases : List String) (fs : List String) : List (String × String) :=
  bases.flatMap fun base =>
    ["py", "j2"].flatMap fun ext =>
      (fs.filter (globMatch base ext)).map fun p => (base, pyDirname p)

/-- A full discovery pass of `discover_tasks` (tasks.py lines 26-109) from the
empty registries, over the configured `bases` and the filesystem `fs`. -/
def discover_tasks (o : Oracles) (bases : List String) (fs : List String) : DState :=
  discoverFrom o initState (candidatesOf bases fs)

/-!
The per-task endpoint handlers (`APIJinjamatorTask`, tasks.py lines 64-106).
JSON-like values are modeled by `Jval`; the freshly re-synthesized
`full_schema = task.get_jsonform_schema()` of a read is a dictionary, supplied
to the handler model directly (re-synthesis itself is the out-of-scope
templating collaborator; supplying one value to both of two compared reads
expresses the determinism proviso of the corresponding claim).
-/

/-- A JSON-like value: a string leaf or an object. -/
inductive Jval where
  | s : String → Jval
  | obj : List (String × Jval) → Jval

/-- Python `d.get(k, {})` over a `Jval` object dictionary. -/
def jDictGet (d : List (String × Jval)) (k : String) : Jval :=
  match dictLookup d k with
  | some v => v
  | none => Jval.obj []

/-- The selector dispatch of `APIJinjamatorTask.get` (tasks.py lines 86-97):
after re-deriving `full_schema`, the `if/elif` chain picks the response.  No
branch matches an unrecognized `schema-type`, so `response` is never assigned
and the `return response` on line 97 raises `UnboundLocalError` — modeled as
`none`. -/
def apiGetResponse (fullSchema : List (String × Jval)) (schemaType : String) : Option Jval :=
  if schemaType = "" ∨ schemaType = "full" then some (Jval.obj fullSchema)
  else if schemaType = "schema" then some (jDictGet fullSchema "schema")
  else if schemaType = "data" then some (jDictGet fullSchema "data")
  else if schemaType = "options" then some (jDictGet fullSchema "options")
  else if schemaType = "view" then some (jDictGet fullSchema "view")
  else none

/-- Outcome of a request handler body. -/
inductive PostOutcome where
  | raised : String → PostOutcome
  | returned : List (String × Jval) → PostOutcome

/-- The body of `APIJinjamatorTask.post` (tasks.py lines 101-106) is
```
    log.info()
    return {}
```
`log.info()` omits the required message argument of `Logger.info(msg, *args)`
and raises `TypeError` on every invocation, whatever the validated payload. -/
def apiPost : PostOutcome :=
  PostOutcome.raised "TypeError: info() missing 1 required positional argument: msg"

/-- The value `return {}` (line 106) would produce if the handler reached it:
the empty dictionary, built without consulting any job-submission
collaborator. -/
def apiPostBodyIfNoRaise : List (String × Jval) := []

/-!
The web-UI tail of daemon initialization (daemon/__init__.py lines 179-196).
`importlib.import_module` is modeled by an import environment: a module is
either missing (`import_module` raises `ModuleNotFoundError`, the only
exception the `except` on line 193 catches) or present, in which case
`register_blueprint(webui_blueprint.webui)` needs the module to expose a
`webui` attribute (line 192; an `AttributeError` there would propagate).
-/

/-- Result of importing a configured web-UI module. -/
inductive ImportOutcome where
  | found : Bool → ImportOutcome
  | missing : ImportOutcome
deriving DecidableEq

/-- Outcome of the web-UI portion of `initialize`. -/
structure WebuiOutcome where
  webuiEnabled : Bool
  loggedError : Bool
deriving DecidableEq, Repr

/-- Python `s.lower()` (ASCII range, which covers the configured class names). -/
def pyLower (s : String) : String := ⟨s.data.map Char.toLower⟩

/-- The disabling values of `JINJAMATOR_WEB_UI_CLASS` (lines 179-185). -/
def disabledWords : List String := ["none", "false", "disable", "no", "disabled"]

/-- The web-UI tail of `initialize` (daemon/__init__.py lines 179-196): a
disabling class name only logs a debug line; otherwise the named module is
imported and its `webui` blueprint registered, a `ModuleNotFoundError` is
caught and logged with the feature left disabled, and any other exception
(e.g. a present module without a `webui` attribute) propagates. -/
def initWebui (cls : String) (imp : String → ImportOutcome) : Except String WebuiOutcome :=
  if disabledWords.contains (pyLower cls) then Except.ok ⟨false, false⟩
  else
    match imp cls with
    | ImportOutcome.missing => Except.ok ⟨false, true⟩
    | ImportOutcome.found true => Except.ok ⟨true, false⟩
    | ImportOutcome.found false => Except.error "AttributeError: module has no attribute webui"

/-!
The secret-redaction utility `redact` (tools/password.py).  Python values are
modeled by the mutually inductive `PyVal`/`PyList`/`PyDict` (a string, an
opaque non-container atom, a list, or a string-keyed dictionary — `redact` is
applied to configuration data whose keys are strings; a non-string key would
make the source's `"pass" in k` raise).  The module-level list
`redacted_passwords` is threaded through explicitly: each function takes the
list before the call and returns the list after it, together with the
resulting value, mirroring the in-place mutation and the
`return redacted_passwords, obj` pairs of the source.
-/

mutual

/-- A Python value as seen by `redact`. -/
inductive PyVal where
  | str : String → PyVal
  | atom : Nat → PyVal
  | listV : PyList → PyVal
  | dictV : PyDict → PyVal

/-- A Python list of such values. -/
inductive PyList where
  | nil : PyList
  | cons : PyVal → PyList → PyList

/-- A Python string-keyed dictionary of such values, in insertion order. -/
inductive PyDict where
  | dnil : PyDict
  | dcons : String → PyVal → PyDict → PyDict

end

/-- Python `isinstance(v, str)`. -/
def isStrV : PyVal → Bool
  | PyVal.str _ => true
  | _ => false

/-- Python `"pass" in k`. -/
def strHasPass (k : String) : Bool := occursB "pass".data k.data

mutual

/-- `redact(obj, is_password)` from tools/password.py: a string is replaced by
`"__redacted__"` (recording the original, if new, in the password list) when
the flag is set; list items are redacted with the flag cleared; dictionary
values are redacted with the flag set exactly when the key contains `"pass"`
and the value is a string; other values pass through. -/
def redact : PyVal → Bool → List String → List String × PyVal
  | PyVal.str s, isPw, acc =>
    if isPw then
      (if s ∈ acc then acc else acc ++ [s], PyVal.str "__redacted__")
    else (acc, PyVal.str s)
  | PyVal.atom n, _, acc => (acc, PyVal.atom n)
  | PyVal.listV xs, _, acc =>
    let r := redactL xs acc
    (r.1, PyVal.listV r.2)
  | PyVal.dictV d, _, acc =>
    let r := redactD d acc
    (r.1, PyVal.dictV r.2)

/-- The `for index, item in enumerate(obj)` loop of the list branch. -/
def redactL : PyList → List String → List String × PyList
  | PyList.nil, acc => (acc, PyList.nil)
  | PyList.cons x xs, acc =>
    let r1 := redact x false acc
    let r2 := redactL xs r1.1
    (r2.1, PyList.cons r1.2 r2.2)

/-- The `for k, v in obj.items()` loop of the dictionary branch. -/
def redactD : PyDict → List String → List String × PyDict
  | PyDict.dnil, acc => (acc, PyDict.dnil)
  | PyDict.dcons k v rest, acc =>
    let r1 := if strHasPass k && isStrV v then redact v true acc else redact v false acc
    let r2 := redactD rest r1.1
    (r2.1, PyDict.dcons k r1.2 r2.2)

end

mutual

/-- The redacted value as the claim describes it: every string value stored in
a dictionary under a key containing `"pass"` becomes `"__redacted__"`,
recursively through nested dictionaries and lists; every other string is
unchanged. -/
def redactedSpec : Bool → PyVal → PyVal
  | true, PyVal.str _ => PyVal.str "__redacted__"
  | false, PyVal.str s => PyVal.str s
  | _, PyVal.atom n => PyVal.atom n
  | _, PyVal.listV xs => PyVal.listV (redactedSpecL xs)
  | _, PyVal.dictV d => PyVal.dictV (redactedSpecD d)

/-- `redactedSpec` on lists (items are never password positions). -/
def redactedSpecL : PyList → PyList
  | PyList.nil => PyList.nil
  | PyList.cons x xs => PyList.cons (redactedSpec false x) (redactedSpecL xs)

/-- `redactedSpec` on dictionaries. -/
def redactedSpecD : PyDict → PyDict
  | PyDict.dnil => PyDict.dnil
  | PyDict.dcons k v rest =>
    PyDict.dcons k
      (if strHasPass k && isStrV v then redactedSpec true v else redactedSpec false v)
      (redactedSpecD rest)

end

mutual

/-- The password strings a `redact` traversal replaces, in traversal order
(with multiplicity). -/
def pws : Bool → PyVal → List String
  | true, PyVal.str s => [s]
  | false, PyVal.str _ => []
  | _, PyVal.atom _ => []
  | _, PyVal.listV xs => pwsL xs
  | _, PyVal.dictV d => pwsD d

/-- `pws` on lists. -/
def pwsL : PyList → List String
  | PyList.nil => []
  | PyList.cons x xs => pws false x ++ pwsL xs

/-- `pws` on dictionaries. -/
def pwsD : PyDict → List String
  | PyDict.dnil => []
  | PyDict.dcons k v rest =>
    (if strHasPass k && isStrV v then pws true v else pws false v) ++ pwsD rest

end

/-- Two discovery states agree except possibly at the relative path `a`: equal
schema-model tables, equal registered endpoints, and by-path registries with
the same bindings at every key other than `a`. -/
def agreeOff (a : String) (st st' : DState) : Prop :=
  st.task_models = st'.task_models ∧ st.routes = st'.routes ∧
    ∀ x, x ≠ a →
      dictLookup st.available_tasks_by_path x = dictLookup st'.available_tasks_by_path x

/-!
Theorems.  First general-purpose lemmas about the string primitives and the
dictionary model, then the sanity checks of the identifier deriver against the
published XXH64 vectors, then one theorem (with witness or counterexample as
appropriate) per claim.
-/

/-- `List.isPrefixOf` agrees with the existence of a completing suffix. -/
theorem isPrefixOf_iff_ex (p s : List Char) : p.isPrefixOf s = true ↔ ∃ t, p ++ t = s := by
  induction p generalizing s with
  | nil => simp [List.isPrefixOf]
  | cons a as ih =>
    cases s with
    | nil => simp [List.isPrefixOf]
    | cons b bs =>
      simp only [List.isPrefixOf, Bool.and_eq_true, beq_iff_eq, ih, List.cons_append,
        List.cons.injEq]
      constructor
      · rintro ⟨h1, t, h2⟩
        exact ⟨t, h1, h2⟩
      · rintro ⟨t, h1, h2⟩
        exact ⟨h1, t, h2⟩

/-- The empty pattern occurs in every string. -/
theorem occursB_nil (s : List Char) : occursB [] s = true := by
  cases s <;> simp [occursB, List.isPrefixOf]

/-- `occursB` captures contiguous-substring occurrence. -/
theorem occursB_iff (pat s : List Char) : occursB pat s = true ↔ ∃ a b, s = a ++ pat ++ b := by
  induction s with
  | nil =>
    simp only [occursB, List.isEmpty_iff]
    constructor
    · intro h
      exact ⟨[], [], by simp [h]⟩
    · rintro ⟨a, b, h⟩
      rcases List.append_eq_nil.1 (List.append_eq_nil.1 h.symm).1 with ⟨-, h2⟩
      exact h2
  | cons c rest ih =>
    simp only [occursB, Bool.or_eq_true, isPrefixOf_iff_ex, ih]
    constructor
    · rintro (⟨t, h⟩ | ⟨a, b, h⟩)
      · exact ⟨[], t, by simp [h]⟩
      · exact ⟨c :: a, b, by simp [h]⟩
    · rintro ⟨a, b, h⟩
      cases a with
      | nil =>
        left
        exact ⟨b, by simpa using h.symm⟩
      | cons a0 as =>
        right
        simp only [List.cons_append, List.cons.injEq] at h
        exact ⟨as, b, h.2⟩

/-- When the pattern does not occur in `s`, replacement leaves `s` unchanged
(for any fuel). -/
theorem pyReplaceL_no_occur (pat repl : List Char) :
    ∀ fuel s, occursB pat s = false → pyReplaceL pat repl fuel s = s := by
  intro fuel
  induction fuel with
  | zero => intro s _; cases s <;> rfl
  | succ f ih =>
    intro s h
    cases s with
    | nil => rfl
    | cons c rest =>
      have h' : pat.isPrefixOf (c :: rest) = false ∧ occursB pat rest = false := by
        simpa [occursB] using h
      simp [pyReplaceL, h'.1, ih rest h'.2]

/-- Replacing a nonempty pattern by nothing in `pat ++ rest`, when `pat` does
not occur in `rest`, strips exactly the leading `pat`. -/
theorem pyReplaceL_strip (pat rest : List Char) (hp : pat ≠ [])
    (h : occursB pat rest = false) :
    pyReplaceL pat [] (pat ++ rest).length (pat ++ rest) = rest := by
  cases pat with
  | nil => exact absurd rfl hp
  | cons p pt =>
    have hpre : (p :: pt).isPrefixOf (p :: (pt ++ rest)) = true :=
      (isPrefixOf_iff_ex _ _).2 ⟨rest, rfl⟩
    show pyReplaceL (p :: pt) [] ((pt ++ rest).length + 1) (p :: (pt ++ rest)) = rest
    simp only [pyReplaceL, hpre, List.isEmpty_cons, Bool.not_false, Bool.and_true, if_true,
      List.nil_append, List.length_cons, List.drop_succ_cons, List.drop_left]
    exact pyReplaceL_no_occur _ _ _ _ h

/-- String concatenation acts componentwise on the underlying character
lists. -/
theorem str_data_append (a b : String) : (a ++ b).data = a.data ++ b.data := by
  cases a; cases b; rfl

/-- Rebuilding a string from its characters is the identity. -/
theorem str_mk_data (s : String) : (⟨s.data⟩ : String) = s := rfl

/-- When the base-directory string occurs in `base ++ "/" ++ rel` only as the
leading prefix, line 42 of tasks.py computes exactly the relative path
`rel`. -/
theorem dirNameOf_strip (base rel : String)
    (h : occursB base.data ('/' :: rel.data) = false) :
    dirNameOf (base ++ "/" ++ rel) base = rel := by
  have hnp : base.data ≠ [] := by
    intro he
    rw [he, occursB_nil] at h
    cases h
  have hdata : (base ++ "/" ++ rel).data = base.data ++ ('/' :: rel.data) := by
    rw [str_data_append, str_data_append, List.append_assoc]
    rfl
  unfold dirNameOf pyReplace
  rw [hdata, show ("" : String).data = [] from rfl,
    pyReplaceL_strip base.data ('/' :: rel.data) hnp h]
  rfl

/-- Looking a key up after a Python dictionary assignment. -/
theorem dictLookup_set {β : Type} (m : List (String × β)) (k x : String) (v : β) :
    dictLookup (dictSet m k v) x = if k = x then some v else dictLookup m x := by
  induction m with
  | nil => simp [dictSet, dictLookup]
  | cons p rest ih =>
    obtain ⟨k', v'⟩ := p
    by_cases h1 : k' = k
    · subst h1
      by_cases h2 : k' = x
      · subst h2
        simp [dictSet, dictLookup]
      · simp [dictSet, dictLookup, h2]
    · by_cases h2 : k' = x
      · subst h2
        have hkx : ¬ (k = k') := fun he => h1 he.symm
        simp [dictSet, dictLookup, h1, hkx]
      · simp [dictSet, dictLookup, h1, h2, ih]

/-- Splitting a slash-free chunk yields that single chunk. -/
theorem pySplitL_no_sep (w : List Char) (hw : ('/' : Char) ∉ w) :
    ∀ acc fuel, w.length ≤ fuel → pySplitL ['/'] fuel acc w = [acc.reverse ++ w] := by
  induction w with
  | nil =>
    intro acc fuel _
    cases fuel <;> simp [pySplitL]
  | cons c w' ih =>
    intro acc fuel hf
    have hw' : ('/' : Char) ∉ w' := fun hm => hw (List.mem_cons_of_mem c hm)
    have hc : ¬ (('/' : Char) = c) := fun he => hw (by rw [he]; exact List.mem_cons_self c w')
    cases fuel with
    | zero => simp at hf
    | succ f =>
      have hf' : w'.length ≤ f := by
        simp only [List.length_cons] at hf
        omega
      have hpre : (['/'] : List Char).isPrefixOf (c :: w') = false := by
        simp [List.isPrefixOf, hc]
      rw [show pySplitL ['/'] (f + 1) acc (c :: w') = pySplitL ['/'] f (c :: acc) w' from by
        simp [pySplitL, hpre]]
      rw [ih hw' (c :: acc) f hf']
      simp [List.append_assoc]

/-- Consuming a slash-free chunk up to the next separator. -/
theorem pySplitL_sep_step (w : List Char) (r : List Char) (hw : ('/' : Char) ∉ w) :
    ∀ acc, pySplitL ['/'] (w.length + 1 + r.length) acc (w ++ '/' :: r)
      = (acc.reverse ++ w) :: pySplitL ['/'] r.length [] r := by
  induction w with
  | nil =>
    intro acc
    have e : ([] : List Char).length + 1 + r.length = r.length + 1 := by simp; omega
    rw [e]
    simp [pySplitL, List.isPrefixOf]
  | cons c w' ih =>
    intro acc
    have hw' : ('/' : Char) ∉ w' := fun hm => hw (List.mem_cons_of_mem c hm)
    have hc : ¬ (('/' : Char) = c) := fun he => hw (by rw [he]; exact List.mem_cons_self c w')
    have e : (c :: w').length + 1 + r.length = (w'.length + 1 + r.length) + 1 := by
      simp only [List.length_cons]
      omega
    rw [e]
    have hpre : (['/'] : List Char).isPrefixOf (c :: (w' ++ '/' :: r)) = false := by
      simp [List.isPrefixOf, hc]
    rw [show pySplitL ['/'] (w'.length + 1 + r.length + 1) acc ((c :: w') ++ '/' :: r)
        = pySplitL ['/'] (w'.length + 1 + r.length) (c :: acc) (w' ++ '/' :: r) from by
      simp [pySplitL, hpre]]
    rw [ih hw' (c :: acc)]
    simp [List.append_assoc]

/-- Splitting a leading separator off. -/
theorem pySplitL_lead_sep (r acc : List Char) :
    pySplitL ['/'] (r.length + 1) acc ('/' :: r) = acc.reverse :: pySplitL ['/'] r.length [] r := by
  simp [pySplitL, List.isPrefixOf]

/-- Splitting the join of nonempty, slash-free components recovers them. -/
theorem pySplitL_join (cs : List String) (hne : cs ≠ [])
    (hs : ∀ c ∈ cs, ('/' : Char) ∉ c.data) :
    pySplitL ['/'] (joinComps cs).data.length [] (joinComps cs).data = cs.map String.data := by
  induction cs with
  | nil => exact absurd rfl hne
  | cons c cs' ih =>
    cases cs' with
    | nil =>
      have := pySplitL_no_sep c.data (hs c (by simp)) [] c.data.length le_rfl
      simpa [joinComps] using this
    | cons d cs'' =>
      have hdata : (c ++ "/" ++ joinComps (d :: cs'')).data
          = c.data ++ '/' :: (joinComps (d :: cs'')).data := by
        rw [str_data_append, str_data_append, List.append_assoc]
        rfl
      rw [show joinComps (c :: d :: cs'') = c ++ "/" ++ joinComps (d :: cs'') from rfl, hdata]
      have e : (c.data ++ '/' :: (joinComps (d :: cs'')).data).length
          = c.data.length + 1 + (joinComps (d :: cs'')).data.length := by
        simp
        omega
      rw [e, pySplitL_sep_step c.data _ (hs c (by simp)) [],
        ih (by simp) (fun x hx => hs x (List.mem_cons_of_mem c hx))]
      simp

/-- `str.split` on `'/'` undoes joining with `'/'`, with the empty leading
chunk produced by the leading separator. -/
theorem pySplit_join (cs : List String) (hne : cs ≠ [])
    (hs : ∀ c ∈ cs, ('/' : Char) ∉ c.data) :
    pySplit ("/" ++ joinComps cs) "/" = "" :: cs := by
  unfold pySplit
  have hdata : ("/" ++ joinComps cs).data = '/' :: (joinComps cs).data := by
    rw [str_data_append]
    rfl
  rw [hdata, show ("/" : String).data = ['/'] from rfl,
    show ('/' :: (joinComps cs).data).length = (joinComps cs).data.length + 1 from rfl,
    pySplitL_lead_sep, pySplitL_join cs hne hs]
  have hid : ((fun l => (⟨l⟩ : String)) ∘ String.data) = id := funext fun s => rfl
  simp [hid]

/-- Sanity check of the identifier deriver: the published XXH64 vector for
`"abc"` (seed 0). -/
theorem xxh64_vector_abc : xxh64hex "abc" = "44bc2cf5ad770999" := by decide

/-- Sanity check of the identifier deriver on a 43-byte input, exercising the
four-lane stripe loop: the published XXH64 vector (seed 0). -/
theorem xxh64_vector_long :
    xxh64hex "The quick brown fox jumps over the lazy dog" = "0b242d361fda71bc" := by decide

/-- Claim C1 (code-bug evaluation).  Base directory `/b` contains the task
directory `/b/x` holding the tasklet files `a.py` and `c.j2`, so discovery
traverses `/b/x` once per extension.  The deduplication check of tasks.py
line 51 tests `task_id` — a 16-character hex digest — for membership in
`available_tasks_by_path`, whose keys are relative paths; the digest is never
found, so the second traversal is not skipped as the claim states: the
synthesis collaborator is invoked twice and the endpoint registered twice
(the path-keyed dictionary still holds one entry only because the second
assignment overwrites the first).  The last two conjuncts exhibit the
mismatch directly: after the first traversal the code's id-keyed test is
`false` while the claimed relative-path test is `true`. -/
theorem c1_dedup_checks_id_not_path :
    (discover_tasks ⟨fun _ => some "M", fun _ => none⟩ ["/b"]
        ["/b/x/a.py", "/b/x/c.j2"]).synthCalls = ["/b/x", "/b/x"] ∧
    (discover_tasks ⟨fun _ => some "M", fun _ => none⟩ ["/b"]
        ["/b/x/a.py", "/b/x/c.j2"]).routes = ["x", "x"] ∧
    (discover_tasks ⟨fun _ => some "M", fun _ => none⟩ ["/b"]
        ["/b/x/a.py", "/b/x/c.j2"]).available_tasks_by_path.map Prod.fst = ["x"] ∧
    dictContains (processCandidate ⟨fun _ => some "M", fun _ => none⟩ initState
        "/b" "/b/x").available_tasks_by_path (taskIdOf "/b/x") = false ∧
    dictContains (processCandidate ⟨fun _ => some "M", fun _ => none⟩ initState
        "/b" "/b/x").available_tasks_by_path "x" = true := by
  refine ⟨rfl, rfl, rfl, rfl, rfl⟩

/-- Claim C2 counterexample.  Base directory `/b`, one candidate `/b/x`, and a
schema synthesis that fails (the collaborator raises on load): the exception
is caught — the pass runs to completion — but afterwards the by-path
registry still holds the descriptor for relative path `"x"`, contradicting
the claim that the candidate is excluded from the registry for this pass.
The model table and endpoint list stay empty, and the single entry of
`synthCalls` shows the failing attempt was made. -/
theorem c2_failed_candidate_remains_in_registry :
    dictLookup (discover_tasks ⟨fun _ => none, fun _ => none⟩ ["/b"]
        ["/b/x/t.py"]).available_tasks_by_path "x"
      = some ⟨taskIdOf "/b/x", "x", "/b", "no description"⟩ ∧
    ¬ (dictLookup (discover_tasks ⟨fun _ => none, fun _ => none⟩ ["/b"]
        ["/b/x/t.py"]).available_tasks_by_path "x" = none) ∧
    (discover_tasks ⟨fun _ => none, fun _ => none⟩ ["/b"] ["/b/x/t.py"]).task_models = [] ∧
    (discover_tasks ⟨fun _ => none, fun _ => none⟩ ["/b"] ["/b/x/t.py"]).routes = [] ∧
    (discover_tasks ⟨fun _ => none, fun _ => none⟩ ["/b"] ["/b/x/t.py"]).synthCalls
      = ["/b/x"] := by
  refine ⟨rfl, ?_, rfl, rfl, rfl⟩
  intro h
  exact Option.noConfusion (rfl.trans h).symm

/-- Claim C2 (amended).  For every candidate that passes the hidden filter and
the (id-keyed) deduplication check but whose schema synthesis fails, the
exception is caught and processing continues: the only state changes are the
descriptor insertion — so, contrary to the original claim, the by-path
registry does contain the candidate afterwards — and the record of the
synthesis attempt; the schema-model table and the registered endpoints are
exactly as they were before the candidate. -/
theorem c2_amended_failure_caught (o : Oracles) (st : DState) (base task_dir : String)
    (hfilter : hiddenFilteredB task_dir base = false)
    (hdedup : dictContains st.available_tasks_by_path (taskIdOf task_dir) = false)
    (hfail : o.synthOf (pyJoin base (dirNameOf task_dir base)) = none) :
    processCandidate o st base task_dir =
      { st with
          available_tasks_by_path :=
            dictSet st.available_tasks_by_path (dirNameOf task_dir base)
              (taskInfoOf o base task_dir)
          synthCalls := st.synthCalls ++ [pyJoin base (dirNameOf task_dir base)] } ∧
    dictLookup (processCandidate o st base task_dir).available_tasks_by_path
        (dirNameOf task_dir base) = some (taskInfoOf o base task_dir) := by
  have h1 : processCandidate o st base task_dir =
      { st with
          available_tasks_by_path :=
            dictSet st.available_tasks_by_path (dirNameOf task_dir base)
              (taskInfoOf o base task_dir)
          synthCalls := st.synthCalls ++ [pyJoin base (dirNameOf task_dir base)] } := by
    unfold processCandidate
    simp only [hfilter, Bool.false_eq_true, if_false, taskInfoOf, hdedup, hfail]
  refine ⟨h1, ?_⟩
  rw [h1]
  show dictLookup (dictSet st.available_tasks_by_path (dirNameOf task_dir base)
    (taskInfoOf o base task_dir)) (dirNameOf task_dir base) = some (taskInfoOf o base task_dir)
  rw [dictLookup_set]
  simp

/-- Witness for the amended C2 theorem at a concrete input: base `/b`, task
directory `/b/x`, an always-failing synthesis collaborator, starting from the
empty registries. -/
theorem c2_amended_failure_caught_witness :
    (hiddenFilteredB "/b/x" "/b" = false ∧
     dictContains initState.available_tasks_by_path (taskIdOf "/b/x") = false ∧
     (⟨fun _ => none, fun _ => none⟩ : Oracles).synthOf
        (pyJoin "/b" (dirNameOf "/b/x" "/b")) = none) ∧
    dictLookup (processCandidate ⟨fun _ => none, fun _ => none⟩ initState
        "/b" "/b/x").available_tasks_by_path (dirNameOf "/b/x" "/b")
      = some (taskInfoOf ⟨fun _ => none, fun _ => none⟩ "/b" "/b/x") :=
  ⟨⟨rfl, rfl, rfl⟩,
    (c2_amended_failure_caught ⟨fun _ => none, fun _ => none⟩ initState "/b" "/b/x"
      rfl rfl rfl).2⟩

/-- A candidate caught by the hidden filter leaves the state untouched. -/
theorem processCandidate_filtered {o : Oracles} {st : DState} {b t : String}
    (hf : hiddenFilteredB t b = true) : processCandidate o st b t = st := by
  simp [processCandidate, hf]

/-- A candidate skipped by the line-51 check leaves the state untouched. -/
theorem processCandidate_skip {o : Oracles} {st : DState} {b t : String}
    (hf : hiddenFilteredB t b = false)
    (hc : dictContains st.available_tasks_by_path (taskIdOf t) = true) :
    processCandidate o st b t = st := by
  simp [processCandidate, hf, taskInfoOf, hc]

/-- An accepted candidate whose synthesis fails: the descriptor is inserted
and the attempt recorded; models and endpoints are untouched. -/
theorem processCandidate_fail {o : Oracles} {st : DState} {b t : String}
    (hf : hiddenFilteredB t b = false)
    (hc : dictContains st.available_tasks_by_path (taskIdOf t) = false)
    (hsy : o.synthOf (pyJoin b (dirNameOf t b)) = none) :
    processCandidate o st b t =
      { st with
          available_tasks_by_path :=
            dictSet st.available_tasks_by_path (dirNameOf t b) (taskInfoOf o b t)
          synthCalls := st.synthCalls ++ [pyJoin b (dirNameOf t b)] } := by
  unfold processCandidate
  simp only [hf, Bool.false_eq_true, if_false, taskInfoOf, hc, hsy]

/-- An accepted candidate whose synthesis succeeds: descriptor inserted, model
stored, endpoint registered, attempt recorded. -/
theorem processCandidate_ok {o : Oracles} {st : DState} {b t model : String}
    (hf : hiddenFilteredB t b = false)
    (hc : dictContains st.available_tasks_by_path (taskIdOf t) = false)
    (hsy : o.synthOf (pyJoin b (dirNameOf t b)) = some model) :
    processCandidate o st b t =
      { available_tasks_by_path :=
          dictSet st.available_tasks_by_path (dirNameOf t b) (taskInfoOf o b t)
        task_models := dictSet st.task_models (dirNameOf t b) model
        routes := st.routes ++ [dirNameOf t b]
        synthCalls := st.synthCalls ++ [pyJoin b (dirNameOf t b)] } := by
  unfold processCandidate
  simp only [hf, Bool.false_eq_true, if_false, taskInfoOf, hc, hsy]

/-- Turning the negation of a Bool equation into the other equation. -/
theorem bool_not_true {b : Bool} (h : ¬ (b = true)) : b = false := by
  cases b
  · rfl
  · exact absurd rfl h

/-- Processing one and the same candidate from two states that agree off the
key `a` preserves the agreement, provided the candidate's id differs from `a`
(the line-51 membership test then answers the same in both states). -/
theorem processCandidate_agreeOff (o : Oracles) (a b t : String)
    (hid : taskIdOf t ≠ a) (st st' : DState) (h : agreeOff a st st') :
    agreeOff a (processCandidate o st b t) (processCandidate o st' b t) := by
  obtain ⟨hm, hr, hp⟩ := h
  have hcont : dictContains st.available_tasks_by_path (taskIdOf t)
      = dictContains st'.available_tasks_by_path (taskIdOf t) := by
    unfold dictContains
    rw [hp (taskIdOf t) hid]
  by_cases hf : hiddenFilteredB t b = true
  · rw [processCandidate_filtered hf, processCandidate_filtered hf]
    exact ⟨hm, hr, hp⟩
  · have hf' : hiddenFilteredB t b = false := bool_not_true hf
    by_cases hc : dictContains st.available_tasks_by_path (taskIdOf t) = true
    · rw [processCandidate_skip hf' hc, processCandidate_skip hf' (hcont ▸ hc)]
      exact ⟨hm, hr, hp⟩
    · have hc1 : dictContains st.available_tasks_by_path (taskIdOf t) = false := bool_not_true hc
      have hc2 : dictContains st'.available_tasks_by_path (taskIdOf t) = false := hcont ▸ hc1
      cases hsy : o.synthOf (pyJoin b (dirNameOf t b)) with
      | some model =>
        rw [processCandidate_ok hf' hc1 hsy, processCandidate_ok hf' hc2 hsy]
        refine ⟨by rw [hm], by rw [hr], ?_⟩
        intro x hx
        show dictLookup (dictSet st.available_tasks_by_path (dirNameOf t b) (taskInfoOf o b t)) x
          = dictLookup (dictSet st'.available_tasks_by_path (dirNameOf t b) (taskInfoOf o b t)) x
        rw [dictLookup_set, dictLookup_set, hp x hx]
      | none =>
        rw [processCandidate_fail hf' hc1 hsy, processCandidate_fail hf' hc2 hsy]
        refine ⟨hm, hr, ?_⟩
        intro x hx
        show dictLookup (dictSet st.available_tasks_by_path (dirNameOf t b) (taskInfoOf o b t)) x
          = dictLookup (dictSet st'.available_tasks_by_path (dirNameOf t b) (taskInfoOf o b t)) x
        rw [dictLookup_set, dictLookup_set, hp x hx]

/-- Processing the failing candidate on the left only: whatever branch it
takes, the agreement off its own relative path is preserved (its synthesis
fails, so models and endpoints are untouched, and its descriptor lands under
exactly the excluded key). -/
theorem processCandidate_fail_agreeOff (o : Oracles) (bA tA : String)
    (hfail : o.synthOf (pyJoin bA (dirNameOf tA bA)) = none)
    (st st' : DState) (h : agreeOff (dirNameOf tA bA) st st') :
    agreeOff (dirNameOf tA bA) (processCandidate o st bA tA) st' := by
  obtain ⟨hm, hr, hp⟩ := h
  by_cases hf : hiddenFilteredB tA bA = true
  · rw [processCandidate_filtered hf]
    exact ⟨hm, hr, hp⟩
  · have hf' : hiddenFilteredB tA bA = false := bool_not_true hf
    by_cases hc : dictContains st.available_tasks_by_path (taskIdOf tA) = true
    · rw [processCandidate_skip hf' hc]
      exact ⟨hm, hr, hp⟩
    · have hc1 : dictContains st.available_tasks_by_path (taskIdOf tA) = false := bool_not_true hc
      rw [processCandidate_fail hf' hc1 hfail]
      refine ⟨hm, hr, ?_⟩
      intro x hx
      show dictLookup (dictSet st.available_tasks_by_path (dirNameOf tA bA) (taskInfoOf o bA tA)) x
        = dictLookup st'.available_tasks_by_path x
      rw [dictLookup_set, if_neg (fun he => hx he.symm), hp x hx]

/-- The discovery loop, run over a candidate list containing a failing
candidate `(bA, tA)` and, in parallel, over the same list with that candidate
removed: provided no other candidate's id collides with the failing
candidate's relative path, the two runs agree off that path. -/
theorem discoverFrom_agreeOff (o : Oracles) (bA tA : String)
    (hfail : o.synthOf (pyJoin bA (dirNameOf tA bA)) = none) :
    ∀ (L : List (String × String)) (st st' : DState),
      agreeOff (dirNameOf tA bA) st st' →
      (∀ p ∈ L, p.2 = tA → p.1 = bA) →
      (∀ p ∈ L, p.2 ≠ tA → taskIdOf p.2 ≠ dirNameOf tA bA) →
      agreeOff (dirNameOf tA bA) (discoverFrom o st L)
        (discoverFrom o st' (L.filter fun p => p.2 ≠ tA)) := by
  intro L
  induction L with
  | nil =>
    intro st st' h _ _
    exact h
  | cons p rest ih =>
    intro st st' h hbase hnocol
    obtain ⟨b, t⟩ := p
    by_cases ht : t = tA
    · subst ht
      have hb : b = bA := hbase (b, t) (List.mem_cons_self _ _) rfl
      subst hb
      have hfl : ((b, t) :: rest).filter (fun p => decide (p.2 ≠ t))
          = rest.filter (fun p => decide (p.2 ≠ t)) := by
        simp [List.filter_cons]
      rw [hfl]
      show agreeOff (dirNameOf t b) (discoverFrom o (processCandidate o st b t) rest)
        (discoverFrom o st' (rest.filter fun p => decide (p.2 ≠ t)))
      exact ih (processCandidate o st b t) st'
        (processCandidate_fail_agreeOff o b t hfail st st' h)
        (fun q hq => hbase q (List.mem_cons_of_mem _ hq))
        (fun q hq => hnocol q (List.mem_cons_of_mem _ hq))
    · have hfl : ((b, t) :: rest).filter (fun p => decide (p.2 ≠ tA))
          = (b, t) :: rest.filter (fun p => decide (p.2 ≠ tA)) := by
        simp [List.filter_cons, ht]
      rw [hfl]
      show agreeOff (dirNameOf tA bA) (discoverFrom o (processCandidate o st b t) rest)
        (discoverFrom o (processCandidate o st' b t) (rest.filter fun p => decide (p.2 ≠ tA)))
      exact ih (processCandidate o st b t) (processCandidate o st' b t)
        (processCandidate_agreeOff o (dirNameOf tA bA) b t
          (hnocol (b, t) (List.mem_cons_self _ _) ht) st st' h)
        (fun q hq => hbase q (List.mem_cons_of_mem _ hq))
        (fun q hq => hnocol q (List.mem_cons_of_mem _ hq))

/-- Two filters of the same list commute. -/
theorem filter_swap {α : Type} (l : List α) (p q : α → Bool) :
    (l.filter p).filter q = (l.filter q).filter p := by
  rw [List.filter_filter, List.filter_filter]
  exact List.filter_congr (fun a _ => by cases p a <;> cases q a <;> rfl)

/-- Filtering a directory's files out of the filesystem filters exactly that
directory's candidates out of the candidate stream of one `(base, ext)`
pattern. -/
theorem filterCand (b e tA : String) (fs : List String) :
    ((fs.filter fun p => pyDirname p ≠ tA).filter (globMatch b e)).map
        (fun p => (b, pyDirname p))
      = ((fs.filter (globMatch b e)).map (fun p => (b, pyDirname p))).filter
          (fun c => c.2 ≠ tA) := by
  rw [List.filter_map, filter_swap]
  rfl

/-- Removing one task directory's files from the filesystem removes exactly
that directory's candidates from the discovery pass. -/
theorem candidatesOf_filter_dir (bases fs : List String) (tA : String) :
    candidatesOf bases (fs.filter fun p => pyDirname p ≠ tA)
      = (candidatesOf bases fs).filter fun c => c.2 ≠ tA := by
  unfold candidatesOf
  induction bases with
  | nil => rfl
  | cons b bs ih =>
    simp only [List.flatMap_cons, List.filter_append, ih]
    congr 1
    simp only [List.flatMap_cons, List.flatMap_nil, List.append_nil, List.filter_append]
    rw [filterCand b "py" tA fs, filterCand b "j2" tA fs]
    simp

/-- Claim C3 counterexample.  Under base `/b` the filesystem holds a failing
task directory literally named the xxh64 hex digest of `/b/x` — that is,
`/b/e8c0e75de4fcdecb` — followed by the healthy task directory `/b/x`.  The
failing candidate's descriptor is inserted under its relative path (the digest
string); when `/b/x` is processed next, the line-51 check finds its id (that
same digest) among the path keys and skips the candidate entirely, so `"x"`
is never registered — whereas with the failing candidate absent from the
filesystem it is registered normally.  A remaining candidate is therefore not
registered exactly as it would be if the failing candidate were absent. -/
theorem c3_failing_candidate_perturbs_sibling :
    (discover_tasks ⟨fun p => if p = "/b/x" then some "M" else none, fun _ => none⟩ ["/b"]
        ["/b/" ++ xxh64hex "/b/x" ++ "/t.py", "/b/x/t.py"]).synthCalls
      = ["/b/" ++ xxh64hex "/b/x"] ∧
    (discover_tasks ⟨fun p => if p = "/b/x" then some "M" else none, fun _ => none⟩ ["/b"]
        ["/b/" ++ xxh64hex "/b/x" ++ "/t.py", "/b/x/t.py"]).task_models = [] ∧
    (discover_tasks ⟨fun p => if p = "/b/x" then some "M" else none, fun _ => none⟩ ["/b"]
        ["/b/" ++ xxh64hex "/b/x" ++ "/t.py", "/b/x/t.py"]).routes = [] ∧
    dictLookup (discover_tasks ⟨fun p => if p = "/b/x" then some "M" else none,
        fun _ => none⟩ ["/b"]
        ["/b/" ++ xxh64hex "/b/x" ++ "/t.py", "/b/x/t.py"]).available_tasks_by_path "x"
      = none ∧
    dictLookup (discover_tasks ⟨fun p => if p = "/b/x" then some "M" else none,
        fun _ => none⟩ ["/b"] ["/b/x/t.py"]).available_tasks_by_path "x"
      = some ⟨taskIdOf "/b/x", "x", "/b", "no description"⟩ ∧
    (discover_tasks ⟨fun p => if p = "/b/x" then some "M" else none, fun _ => none⟩ ["/b"]
        ["/b/x/t.py"]).routes = ["x"] := by
  exact ⟨rfl, rfl, rfl, rfl, rfl, rfl⟩

/-- Claim C3 (amended).  A failure while processing one candidate never aborts
the pass — the loop is total and every remaining candidate is still processed
— and, provided no remaining candidate's task id (xxh64 hex digest of its
directory) coincides with the failing candidate's relative path (a collision
the id-keyed dedup check of line 51 would confuse), every remaining candidate
is registered exactly as it would be if the failing candidate's files were
absent from the filesystem: the schema-model table and endpoint list are
identical, and the by-path registry agrees at every key other than the
failing candidate's own relative path. -/
theorem c3_amended_failure_isolated (o : Oracles) (bases fs : List String) (bA tA : String)
    (hbase : ∀ p ∈ candidatesOf bases fs, p.2 = tA → p.1 = bA)
    (hfail : o.synthOf (pyJoin bA (dirNameOf tA bA)) = none)
    (hnocol : ∀ p ∈ candidatesOf bases fs, p.2 ≠ tA → taskIdOf p.2 ≠ dirNameOf tA bA) :
    agreeOff (dirNameOf tA bA) (discover_tasks o bases fs)
      (discover_tasks o bases (fs.filter fun p => pyDirname p ≠ tA)) := by
  unfold discover_tasks
  rw [candidatesOf_filter_dir]
  exact discoverFrom_agreeOff o bA tA hfail (candidatesOf bases fs) initState initState
    ⟨rfl, rfl, fun _ _ => rfl⟩ hbase hnocol

/-- Witness for the amended C3 theorem: base `/b` with a failing task
directory `/b/y` and a healthy sibling `/b/x`; removing `/b/y`'s files leaves
the sibling's registration untouched. -/
theorem c3_amended_failure_isolated_witness :
    ((∀ p ∈ candidatesOf ["/b"] ["/b/y/t.py", "/b/x/u.py"], p.2 = "/b/y" → p.1 = "/b") ∧
     (⟨fun p => if p = "/b/x" then some "M" else none, fun _ => none⟩ : Oracles).synthOf
        (pyJoin "/b" (dirNameOf "/b/y" "/b")) = none ∧
     (∀ p ∈ candidatesOf ["/b"] ["/b/y/t.py", "/b/x/u.py"], p.2 ≠ "/b/y" →
        taskIdOf p.2 ≠ dirNameOf "/b/y" "/b")) ∧
    agreeOff (dirNameOf "/b/y" "/b")
      (discover_tasks ⟨fun p => if p = "/b/x" then some "M" else none, fun _ => none⟩ ["/b"]
        ["/b/y/t.py", "/b/x/u.py"])
      (discover_tasks ⟨fun p => if p = "/b/x" then some "M" else none, fun _ => none⟩ ["/b"]
        (["/b/y/t.py", "/b/x/u.py"].filter fun p => pyDirname p ≠ "/b/y")) :=
  ⟨⟨by decide, rfl, by decide⟩,
    c3_amended_failure_isolated ⟨fun p => if p = "/b/x" then some "M" else none, fun _ => none⟩
      ["/b"] ["/b/y/t.py", "/b/x/u.py"] "/b" "/b/y" (by decide) rfl (by decide)⟩

/-- Claim C4 (code-bug evaluation).  The write handler's body
(tasks.py lines 101-106) is `log.info()` followed by `return {}`: the logging
call omits the required message argument and raises `TypeError` on every
request, and even the value the handler would return is the empty dictionary
— it has no `job_id` field and no job-submission collaborator is ever
consulted — contradicting both the claim and the handler's own docstring
("Creates an instance of the task and returns the job_id"). -/
theorem c4_post_returns_no_job_id :
    apiPost = PostOutcome.raised
      "TypeError: info() missing 1 required positional argument: msg" ∧
    dictLookup apiPostBodyIfNoRaise "job_id" = none :=
  ⟨rfl, rfl⟩

/-- Claim C5 counterexample.  The file `/b/__pycache__/t.py` is matched by the
glob pattern, making `/b/__pycache__` a candidate under base `/b`.  There is
no path component strictly between the base directory and the candidate, so
the claim says this candidate is not filtered out by the hidden-directory
rule; but the source's filter (tasks.py lines 34-38) iterates over every
chunk of the base-stripped path, including the candidate's own final
component `__pycache__`, and rejects it: the discovery state stays empty even
though synthesis would have succeeded. -/
theorem c5_final_component_also_filtered :
    hiddenFilteredB "/b/__pycache__" "/b" = true ∧
    discover_tasks ⟨fun _ => some "M", fun _ => none⟩ ["/b"] ["/b/__pycache__/t.py"]
      = initState :=
  ⟨rfl, rfl⟩

/-- Claim C5 (amended).  Writing the candidate as `base ++ "/" ++ joinComps cs`
with nonempty slash-free components `cs`, and assuming the base string occurs
in the candidate only as its leading prefix: the source's filter rejects the
candidate exactly when SOME component after the base — including the
candidate's own final component, not only those strictly between base and
candidate — starts with `'.'` or equals `"__pycache__"`; and a rejected
candidate leaves the discovery state untouched, so it is never added to any
registry and no endpoint is registered for it. -/
theorem c5_amended_filter_after_base (o : Oracles) (st : DState) (base : String)
    (cs : List String) (hne : cs ≠ [])
    (hsl : ∀ c ∈ cs, ('/' : Char) ∉ c.data)
    (hocc : occursB base.data ('/' :: (joinComps cs).data) = false) :
    (hiddenFilteredB (base ++ "/" ++ joinComps cs) base = true
      ↔ ∃ c ∈ cs, (sStarts c "." || decide (c = "__pycache__")) = true) ∧
    (hiddenFilteredB (base ++ "/" ++ joinComps cs) base = true →
      processCandidate o st base (base ++ "/" ++ joinComps cs) = st) := by
  have hnp : base.data ≠ [] := by
    intro he
    rw [he, occursB_nil] at hocc
    cases hocc
  have hdata : (base ++ "/" ++ joinComps cs).data
      = base.data ++ ('/' :: (joinComps cs).data) := by
    rw [str_data_append, str_data_append, List.append_assoc]
    rfl
  have hslash : ("/" ++ joinComps cs).data = '/' :: (joinComps cs).data := by
    rw [str_data_append]
    rfl
  have hrepl : pyReplace (base ++ "/" ++ joinComps cs) base "" = "/" ++ joinComps cs := by
    unfold pyReplace
    rw [hdata, show ("" : String).data = [] from rfl,
      pyReplaceL_strip base.data ('/' :: (joinComps cs).data) hnp hocc]
    calc (⟨'/' :: (joinComps cs).data⟩ : String)
        = ⟨("/" ++ joinComps cs).data⟩ := by rw [hslash]
      _ = "/" ++ joinComps cs := str_mk_data _
  constructor
  · unfold hiddenFilteredB
    rw [hrepl, pySplit_join cs hne hsl]
    have h0 : (sStarts "" "." || decide (("" : String) = "__pycache__")) = false := by decide
    rw [List.any_cons, h0, Bool.false_or]
    exact List.any_eq_true
  · intro hfil
    exact processCandidate_filtered hfil

/-- Witness for the amended C5 theorem: base `/b` and the single component
`__pycache__` (the candidate's own final component), which is filtered and
registers nothing. -/
theorem c5_amended_filter_after_base_witness :
    ((["__pycache__"] : List String) ≠ [] ∧
     (∀ c ∈ (["__pycache__"] : List String), ('/' : Char) ∉ c.data) ∧
     occursB "/b".data ('/' :: (joinComps ["__pycache__"]).data) = false) ∧
    ((hiddenFilteredB ("/b" ++ "/" ++ joinComps ["__pycache__"]) "/b" = true
       ↔ ∃ c ∈ (["__pycache__"] : List String),
           (sStarts c "." || decide (c = "__pycache__")) = true) ∧
     (hiddenFilteredB ("/b" ++ "/" ++ joinComps ["__pycache__"]) "/b" = true →
       processCandidate ⟨fun _ => some "M", fun _ => none⟩ initState "/b"
         ("/b" ++ "/" ++ joinComps ["__pycache__"]) = initState)) :=
  ⟨⟨by decide, by decide, by decide⟩,
    c5_amended_filter_after_base ⟨fun _ => some "M", fun _ => none⟩ initState "/b"
      ["__pycache__"] (by decide) (by decide) (by decide)⟩

/-- Claim C6 counterexample.  Base `/b`, candidate `/b/x/b` (containing
`t.py`): the base-directory string `/b` occurs again later in the candidate
path, and the `str.replace`-based computation of tasks.py line 42 removes
BOTH occurrences, yielding relative path `"x"` instead of the true relative
path `"x/b"`; the registry is keyed by the wrong value. -/
theorem c6_reoccurring_base_breaks_relative_path :
    dirNameOf "/b/x/b" "/b" = "x" ∧
    ¬ dirNameOf "/b/x/b" "/b" = "x/b" ∧
    (discover_tasks ⟨fun _ => some "M", fun _ => none⟩ ["/b"]
        ["/b/x/b/t.py"]).available_tasks_by_path.map Prod.fst = ["x"] := by
  refine ⟨rfl, ?_, rfl⟩
  decide

/-- Claim C6 (amended).  The descriptor's relative_path equals the candidate
path with EVERY occurrence of the base-directory string removed and the then
leading character dropped; when the base-directory string occurs in the
candidate only as its leading prefix — it does not reoccur as a later
substring — this equals exactly the task's path relative to its base
directory. -/
theorem c6_amended_relative_path (o : Oracles) (base rel : String)
    (hocc : occursB base.data ('/' :: rel.data) = false) :
    (taskInfoOf o base (base ++ "/" ++ rel)).path = rel := by
  show dirNameOf (base ++ "/" ++ rel) base = rel
  exact dirNameOf_strip base rel hocc

/-- Witness for the amended C6 theorem: base `/b` and relative path `x/y`,
where the base occurs only as the prefix. -/
theorem c6_amended_relative_path_witness :
    occursB "/b".data ('/' :: ("x/y" : String).data) = false ∧
    (taskInfoOf ⟨fun _ => some "M", fun _ => none⟩ "/b" ("/b" ++ "/" ++ "x/y")).path
      = "x/y" :=
  ⟨by decide,
    c6_amended_relative_path ⟨fun _ => some "M", fun _ => none⟩ "/b" "x/y" (by decide)⟩

/-- Claim C7.  For one and the same freshly re-synthesized full schema (the
claim's determinism proviso), each section selector of the read handler
returns exactly the corresponding section of what `schema-type=full` returns:
`data` yields the value at key `data` of the full response, and likewise for
`schema`, `options` and `view`. -/
theorem c7_section_selectors_match_full (full : List (String × Jval))
    (vs vd vo vv : Jval)
    (hs : dictLookup full "schema" = some vs)
    (hd : dictLookup full "data" = some vd)
    (ho : dictLookup full "options" = some vo)
    (hv : dictLookup full "view" = some vv) :
    apiGetResponse full "full" = some (Jval.obj full) ∧
    apiGetResponse full "schema" = some vs ∧
    apiGetResponse full "data" = some vd ∧
    apiGetResponse full "options" = some vo ∧
    apiGetResponse full "view" = some vv := by
  refine ⟨rfl, ?_, ?_, ?_, ?_⟩ <;>
    simp [apiGetResponse, jDictGet, hs, hd, ho, hv]

/-- Witness for the C7 theorem on a four-section schema. -/
theorem c7_section_selectors_match_full_witness :
    (dictLookup [("schema", Jval.s "S"), ("data", Jval.s "D"), ("options", Jval.s "O"),
        ("view", Jval.s "V")] "schema" = some (Jval.s "S") ∧
     dictLookup [("schema", Jval.s "S"), ("data", Jval.s "D"), ("options", Jval.s "O"),
        ("view", Jval.s "V")] "data" = some (Jval.s "D")) ∧
    apiGetResponse [("schema", Jval.s "S"), ("data", Jval.s "D"), ("options", Jval.s "O"),
        ("view", Jval.s "V")] "data" = some (Jval.s "D") ∧
    apiGetResponse [("schema", Jval.s "S"), ("data", Jval.s "D"), ("options", Jval.s "O"),
        ("view", Jval.s "V")] "view" = some (Jval.s "V") :=
  ⟨⟨rfl, rfl⟩,
    (c7_section_selectors_match_full
      [("schema", Jval.s "S"), ("data", Jval.s "D"), ("options", Jval.s "O"),
        ("view", Jval.s "V")]
      (Jval.s "S") (Jval.s "D") (Jval.s "O") (Jval.s "V") rfl rfl rfl rfl).2.2.1,
    (c7_section_selectors_match_full
      [("schema", Jval.s "S"), ("data", Jval.s "D"), ("options", Jval.s "O"),
        ("view", Jval.s "V")]
      (Jval.s "S") (Jval.s "D") (Jval.s "O") (Jval.s "V") rfl rfl rfl rfl).2.2.2.2⟩

/-- Claim C8 counterexample.  For the unrecognized selector `"bogus"` the read
handler does not fall back to the full schema: no branch of the lines 86-95
chain assigns `response`, so line 97 fails on an unbound local (modeled as
`none`), while `schema-type=full` returns the full schema — the two responses
differ. -/
theorem c8_unknown_selector_fails :
    apiGetResponse [("schema", Jval.s "S")] "bogus" = none ∧
    apiGetResponse [("schema", Jval.s "S")] "full"
      = some (Jval.obj [("schema", Jval.s "S")]) ∧
    ¬ (apiGetResponse [("schema", Jval.s "S")] "bogus"
        = apiGetResponse [("schema", Jval.s "S")] "full") := by
  refine ⟨rfl, rfl, fun h => ?_⟩
  exact Option.noConfusion h

/-- Claim C8 (amended).  For every re-synthesized schema and every
`schema-type` value outside the recognized set (`""`, `full`, `schema`,
`data`, `options`, `view`), no branch of the read handler assigns a response:
the operation produces no value — an unbound-local failure — instead of
falling back to the full schema. -/
theorem c8_amended_unknown_selector_no_response (full : List (String × Jval)) (sel : String)
    (h : sel ∉ (["", "full", "schema", "data", "options", "view"] : List String)) :
    apiGetResponse full sel = none := by
  have h1 : ¬ (sel = "" ∨ sel = "full") := by
    rintro (h' | h') <;> exact h (by simp [h'])
  have h3 : ¬ sel = "schema" := fun h' => h (by simp [h'])
  have h4 : ¬ sel = "data" := fun h' => h (by simp [h'])
  have h5 : ¬ sel = "options" := fun h' => h (by simp [h'])
  have h6 : ¬ sel = "view" := fun h' => h (by simp [h'])
  unfold apiGetResponse
  rw [if_neg h1, if_neg h3, if_neg h4, if_neg h5, if_neg h6]

/-- Witness for the amended C8 theorem at the selector `"bogus"`. -/
theorem c8_amended_unknown_selector_no_response_witness :
    ("bogus" : String) ∉ (["", "full", "schema", "data", "options", "view"] : List String) ∧
    apiGetResponse [("schema", Jval.s "S")] "bogus" = none :=
  ⟨by decide, c8_amended_unknown_selector_no_response _ _ (by decide)⟩

/-- Claim C9.  For every configured web-UI class name that does not denote a
disabled UI, if importing the named module fails because the module is
missing (`ModuleNotFoundError`, the only exception line 193 catches), daemon
initialization logs the error and completes normally with the web-UI feature
disabled — it neither raises nor terminates the process. -/
theorem c9_missing_webui_module_not_fatal (cls : String) (imp : String → ImportOutcome)
    (hen : disabledWords.contains (pyLower cls) = false)
    (hmiss : imp cls = ImportOutcome.missing) :
    initWebui cls imp = Except.ok ⟨false, true⟩ := by
  unfold initWebui
  simp only [hen, Bool.false_eq_true, if_false, hmiss]

/-- Witness for the C9 theorem: a non-disabling class name whose module is
missing from the import environment. -/
theorem c9_missing_webui_module_not_fatal_witness :
    disabledWords.contains (pyLower "jinjamator.daemon.webui") = false ∧
    initWebui "jinjamator.daemon.webui" (fun _ => ImportOutcome.missing)
      = Except.ok ⟨false, true⟩ :=
  ⟨by decide, c9_missing_webui_module_not_fatal "jinjamator.daemon.webui"
    (fun _ => ImportOutcome.missing) (by decide) rfl⟩

mutual

/-- The value `redact` returns is exactly the claim's description of it. -/
theorem redact_val_eq : ∀ (v : PyVal) (p : Bool) (L : List String),
    (redact v p L).2 = redactedSpec p v
  | PyVal.str s, p, L => by cases p <;> simp [redact, redactedSpec]
  | PyVal.atom n, p, L => by cases p <;> simp [redact, redactedSpec]
  | PyVal.listV xs, p, L => by
    cases p <;> simp [redact, redactedSpec, redactL_val_eq xs L]
  | PyVal.dictV d, p, L => by
    cases p <;> simp [redact, redactedSpec, redactD_val_eq d L]

/-- `redact_val_eq` on lists. -/
theorem redactL_val_eq : ∀ (xs : PyList) (L : List String),
    (redactL xs L).2 = redactedSpecL xs
  | PyList.nil, L => by simp [redactL, redactedSpecL]
  | PyList.cons x xs, L => by
    simp [redactL, redactedSpecL, redact_val_eq x false L,
      redactL_val_eq xs (redact x false L).1]

/-- `redact_val_eq` on dictionaries. -/
theorem redactD_val_eq : ∀ (d : PyDict) (L : List String),
    (redactD d L).2 = redactedSpecD d
  | PyDict.dnil, L => by simp [redactD, redactedSpecD]
  | PyDict.dcons k v rest, L => by
    by_cases hb : (strHasPass k && isStrV v) = true
    · simp [redactD, redactedSpecD, hb, redact_val_eq v true L,
        redactD_val_eq rest (redact v true L).1]
    · have hb' : (strHasPass k && isStrV v) = false := bool_not_true hb
      simp [redactD, redactedSpecD, hb', redact_val_eq v false L,
        redactD_val_eq rest (redact v false L).1]

end

mutual

/-- Membership in the returned password list: exactly the incoming entries
plus the passwords the traversal replaces. -/
theorem redact_mem : ∀ (v : PyVal) (p : Bool) (L : List String) (s : String),
    s ∈ (redact v p L).1 ↔ s ∈ L ∨ s ∈ pws p v
  | PyVal.str t, p, L, s => by
    cases p with
    | false => simp [redact, pws]
    | true =>
      by_cases ht : t ∈ L
      · simp only [redact, if_true, ht, ite_true, pws, List.mem_singleton]
        constructor
        · exact Or.inl
        · rintro (h | h)
          · exact h
          · exact h ▸ ht
      · simp [redact, pws, ht, List.mem_append]
  | PyVal.atom n, p, L, s => by cases p <;> simp [redact, pws]
  | PyVal.listV xs, p, L, s => by
    cases p <;> simpa [redact, pws] using redactL_mem xs L s
  | PyVal.dictV d, p, L, s => by
    cases p <;> simpa [redact, pws] using redactD_mem d L s

/-- `redact_mem` on lists. -/
theorem redactL_mem : ∀ (xs : PyList) (L : List String) (s : String),
    s ∈ (redactL xs L).1 ↔ s ∈ L ∨ s ∈ pwsL xs
  | PyList.nil, L, s => by simp [redactL, pwsL]
  | PyList.cons x xs, L, s => by
    simp only [redactL, pwsL, List.mem_append]
    rw [redactL_mem xs (redact x false L).1 s, redact_mem x false L s]
    tauto

/-- `redact_mem` on dictionaries. -/
theorem redactD_mem : ∀ (d : PyDict) (L : List String) (s : String),
    s ∈ (redactD d L).1 ↔ s ∈ L ∨ s ∈ pwsD d
  | PyDict.dnil, L, s => by simp [redactD, pwsD]
  | PyDict.dcons k v rest, L, s => by
    by_cases hb : (strHasPass k && isStrV v) = true
    · simp only [redactD, pwsD, hb, if_true, List.mem_append]
      rw [redactD_mem rest (redact v true L).1 s, redact_mem v true L s]
      tauto
    · have hb' : (strHasPass k && isStrV v) = false := bool_not_true hb
      simp only [redactD, pwsD, hb', Bool.false_eq_true, if_false, List.mem_append]
      rw [redactD_mem rest (redact v false L).1 s, redact_mem v false L s]
      tauto

end

mutual

/-- The returned password list stays duplicate-free. -/
theorem redact_nodup : ∀ (v : PyVal) (p : Bool) (L : List String),
    L.Nodup → ((redact v p L).1).Nodup
  | PyVal.str t, p, L, hL => by
    cases p with
    | false => simpa [redact] using hL
    | true =>
      by_cases ht : t ∈ L
      · simpa [redact, ht] using hL
      · simp only [redact, if_true, ht, ite_false]
        have hd : L.Disjoint [t] := by
          intro a ha hb
          rw [List.mem_singleton] at hb
          exact ht (hb ▸ ha)
        exact List.nodup_append.2 ⟨hL, List.nodup_singleton t, hd⟩
  | PyVal.atom n, p, L, hL => by cases p <;> simpa [redact] using hL
  | PyVal.listV xs, p, L, hL => by
    cases p <;> simpa [redact] using redactL_nodup xs L hL
  | PyVal.dictV d, p, L, hL => by
    cases p <;> simpa [redact] using redactD_nodup d L hL

/-- `redact_nodup` on lists. -/
theorem redactL_nodup : ∀ (xs : PyList) (L : List String),
    L.Nodup → ((redactL xs L).1).Nodup
  | PyList.nil, L, hL => by simpa [redactL] using hL
  | PyList.cons x xs, L, hL => by
    simpa [redactL] using
      redactL_nodup xs (redact x false L).1 (redact_nodup x false L hL)

/-- `redact_nodup` on dictionaries. -/
theorem redactD_nodup : ∀ (d : PyDict) (L : List String),
    L.Nodup → ((redactD d L).1).Nodup
  | PyDict.dnil, L, hL => by simpa [redactD] using hL
  | PyDict.dcons k v rest, L, hL => by
    by_cases hb : (strHasPass k && isStrV v) = true
    · simpa [redactD, hb] using
        redactD_nodup rest (redact v true L).1 (redact_nodup v true L hL)
    · have hb' : (strHasPass k && isStrV v) = false := bool_not_true hb
      simpa [redactD, hb'] using
        redactD_nodup rest (redact v false L).1 (redact_nodup v false L hL)

end

mutual

/-- When every replaceable password is already recorded, the password list is
returned unchanged. -/
theorem redact_fix : ∀ (v : PyVal) (p : Bool) (L : List String),
    (∀ s ∈ pws p v, s ∈ L) → (redact v p L).1 = L
  | PyVal.str t, p, L, hsub => by
    cases p with
    | false => simp [redact]
    | true =>
      have ht : t ∈ L := hsub t (by simp [pws])
      simp [redact, ht]
  | PyVal.atom n, p, L, _ => by cases p <;> simp [redact]
  | PyVal.listV xs, p, L, hsub => by
    cases p <;> simpa [redact] using redactL_fix xs L (by simpa [pws] using hsub)
  | PyVal.dictV d, p, L, hsub => by
    cases p <;> simpa [redact] using redactD_fix d L (by simpa [pws] using hsub)

/-- `redact_fix` on lists. -/
theorem redactL_fix : ∀ (xs : PyList) (L : List String),
    (∀ s ∈ pwsL xs, s ∈ L) → (redactL xs L).1 = L
  | PyList.nil, L, _ => by simp [redactL]
  | PyList.cons x xs, L, hsub => by
    have h1 : (redact x false L).1 = L :=
      redact_fix x false L (fun s hs => hsub s (by simp [pwsL, hs]))
    have h2 : (redactL xs (redact x false L).1).1 = (redact x false L).1 := by
      rw [h1]
      exact redactL_fix xs L (fun s hs => hsub s (by simp [pwsL, hs]))
    show (redactL xs (redact x false L).1).1 = L
    rw [h2, h1]

/-- `redact_fix` on dictionaries. -/
theorem redactD_fix : ∀ (d : PyDict) (L : List String),
    (∀ s ∈ pwsD d, s ∈ L) → (redactD d L).1 = L
  | PyDict.dnil, L, _ => by simp [redactD]
  | PyDict.dcons k v rest, L, hsub => by
    by_cases hb : (strHasPass k && isStrV v) = true
    · have h1 : (redact v true L).1 = L :=
        redact_fix v true L (fun s hs => hsub s (by simp [pwsD, hb, hs]))
      have h2 : (redactD rest (redact v true L).1).1 = (redact v true L).1 := by
        rw [h1]
        exact redactD_fix rest L (fun s hs => hsub s (by simp [pwsD, hb, hs]))
      simp only [redactD, hb, if_true]
      rw [h2, h1]
    · have hb' : (strHasPass k && isStrV v) = false := bool_not_true hb
      have h1 : (redact v false L).1 = L :=
        redact_fix v false L (fun s hs => hsub s (by simp [pwsD, hb', hs]))
      have h2 : (redactD rest (redact v false L).1).1 = (redact v false L).1 := by
        rw [h1]
        exact redactD_fix rest L (fun s hs => hsub s (by simp [pwsD, hb', hs]))
      simp only [redactD, hb', Bool.false_eq_true, if_false]
      rw [h2, h1]

end

/-- Claim C10.  `redact` returns the (threaded) module-level password list
paired with the object in which every string value stored in a dictionary
under a key containing `"pass"` is replaced by `"__redacted__"`, recursively
through nested dictionaries and lists, and every other string is unchanged
(the `redactedSpec` rendering of the claim); the returned password list holds
exactly the incoming entries plus the replaced passwords; when the incoming
list has no duplicates — as the module-level list, grown only through these
guarded appends from its empty initial state, always is — the result has no
duplicates and each replaced password appears in it exactly once; and calling
`redact` again on the same object starting from the returned list returns
that list unchanged, so repeated calls never add a second copy. -/
theorem c10_redact_spec (v : PyVal) (L : List String) (hL : L.Nodup) :
    (redact v false L).2 = redactedSpec false v ∧
    (∀ s, s ∈ (redact v false L).1 ↔ s ∈ L ∨ s ∈ pws false v) ∧
    ((redact v false L).1).Nodup ∧
    (∀ s, s ∈ pws false v → List.count s (redact v false L).1 = 1) ∧
    (redact v false ((redact v false L).1)).1 = (redact v false L).1 := by
  refine ⟨redact_val_eq v false L, fun s => redact_mem v false L s,
    redact_nodup v false L hL, ?_, ?_⟩
  · intro s hs
    exact List.count_eq_one_of_mem (redact_nodup v false L hL)
      ((redact_mem v false L s).2 (Or.inr hs))
  · exact redact_fix v false _ (fun s hs => (redact_mem v false L s).2 (Or.inr hs))

/-- Witness for the C10 theorem: redacting
`{"password": "hunter2", "user": "bob"}` starting from the empty module-level
list. -/
theorem c10_redact_spec_witness :
    ([] : List String).Nodup ∧
    (redact (PyVal.dictV (PyDict.dcons "password" (PyVal.str "hunter2")
        (PyDict.dcons "user" (PyVal.str "bob") PyDict.dnil))) false []).2
      = redactedSpec false (PyVal.dictV (PyDict.dcons "password" (PyVal.str "hunter2")
          (PyDict.dcons "user" (PyVal.str "bob") PyDict.dnil))) ∧
    ((redact (PyVal.dictV (PyDict.dcons "password" (PyVal.str "hunter2")
        (PyDict.dcons "user" (PyVal.str "bob") PyDict.dnil))) false []).1).Nodup :=
  ⟨List.nodup_nil,
    (c10_redact_spec (PyVal.dictV (PyDict.dcons "password" (PyVal.str "hunter2")
      (PyDict.dcons "user" (PyVal.str "bob") PyDict.dnil))) [] List.nodup_nil).1,
    (c10_redact_spec (PyVal.dictV (PyDict.dcons "password" (PyVal.str "hunter2")
      (PyDict.dcons "user" (PyVal.str "bob") PyDict.dnil))) [] List.nodup_nil).2.2.1⟩
